import Mathlib

/-!
Verification of the forecast-window / time-resolution core of the
GetAirportWeather dashboard.

Shallow embedding conventions:

* A naive Python `datetime` is an exact count of microseconds since the
  proleptic-Gregorian epoch 0001-01-01T00:00; we model instants as `Int`
  microsecond counts.  Order and `timedelta` arithmetic on `datetime`
  coincide with `Int` order and addition under this encoding.
* `timedelta(days=1)`, `timedelta(hours=h)`, `timedelta(minutes=m)` are the
  corresponding microsecond counts.
* A forecast report (`detailed_report` dict) is modelled by its three fields
  used in the core: its parsed timestamp (`localDate + 'T' + timeslot`),
  `pressure`, and `temperatureC`.  Pressure/temperature only flow through
  `min`/`max`/selection, so they are modelled as integers.
* The pandas data frame built in `main.py` stores timestamps formatted with
  `'%Y-%m-%d %H:%M'` and parsed back; formatting then parsing is exactly
  truncation to the minute, and comparison of such formatted strings agrees
  with chronological comparison, so data-frame rows carry minute-truncated
  instants.
-/

namespace GetAirportWeather

def usPerMinute : Int := 60000000

def usPerHour : Int := 3600000000

def usPerDay : Int := 86400000000

/-- One `detailed_report` entry: parsed timestamp (microseconds), pressure
(hPa) and temperature (degrees C). -/
structure Report where
  time : Int
  pressure : Int
  temperatureC : Int
deriving DecidableEq, Repr

/-! ## `weather.py`: `find_surrounding_weather_reports`

The Python function mutates three locals (`previous_reports`,
`nearest_report`, `next_reports`) while scanning the nested
`weather_data['forecasts'][i]['detailed']['reports']` lists, breaking out of
both loops as soon as `len(next_reports) >= 5`.  We model the mutable locals
as a `ScanState` record and the two nested `for` loops (with their
`break`s checked after each processed report) as `scanReports` (inner loop)
and `scanForecasts` (outer loop). -/

structure ScanState where
  previous_reports : List Report
  nearest_report : Option Report
  next_reports : List Report
deriving DecidableEq, Repr

/-- `if nearest_report is None: nearest_report = detailed_report`. -/
def keepFirst : Option Report → Option Report → Option Report
  | none, o => o
  | some n, _ => some n

/-- The body of the inner loop of `find_surrounding_weather_reports`
(`weather.py` lines 28-33) for one `detailed_report`. -/
def scanReport (target_time : Int) (s : ScanState) (r : Report) : ScanState :=
  if r.time < target_time then
    { s with previous_reports := s.previous_reports ++ [r] }
  else
    { previous_reports := s.previous_reports
      nearest_report := keepFirst s.nearest_report (some r)
      next_reports := s.next_reports ++ [r] }

/-- The inner loop of `find_surrounding_weather_reports` over one
`report['detailed']['reports']` list, with the
`if len(next_reports) >= 5: break` check after each report. -/
def scanReports (target_time : Int) : ScanState → List Report → ScanState
  | s, [] => s
  | s, r :: rest =>
    let s2 := scanReport target_time s r
    if 5 ≤ s2.next_reports.length then s2 else scanReports target_time s2 rest

/-- The outer loop of `find_surrounding_weather_reports` over
`weather_data['forecasts']`, with its own
`if len(next_reports) >= 5: break` check after each group. -/
def scanForecasts (target_time : Int) : ScanState → List (List Report) → ScanState
  | s, [] => s
  | s, grp :: rest =>
    let s2 := scanReports target_time s grp
    if 5 ≤ s2.next_reports.length then s2 else scanForecasts target_time s2 rest

/-- `find_surrounding_weather_reports(weather_data, target_time)`
(`weather.py` lines 18-45): scan, then
`previous_reports[-5:]` and `next_reports[:5]`. -/
def find_surrounding_weather_reports (weather_data : List (List Report))
    (target_time : Int) : List Report × Option Report × List Report :=
  let s := scanForecasts target_time ⟨[], none, []⟩ weather_data
  (s.previous_reports.drop (s.previous_reports.length - 5),
   s.nearest_report,
   s.next_reports.take 5)

/-! ## `utils.py`: offset conversions

`convert_utc_to_local(utc_time, offset)` is `utc_time + timedelta(hours=offset)`
and `convert_local_to_utc(local_time, offset)` is
`local_time - timedelta(hours=offset)`.  Both construct the *same*
`timedelta` from the same `offset` value; `timedelta` construction from a
(possibly fractional, possibly negative) number of hours is a fixed
deterministic microsecond count, so we model an offset by that microsecond
image `offset_delta` directly. -/

def convert_utc_to_local (utc_time offset_delta : Int) : Int :=
  utc_time + offset_delta

def convert_local_to_utc (local_time offset_delta : Int) : Int :=
  local_time - offset_delta

/-! ## `main.py` lines 494-502: target-time resolution

`current_utc_time = datetime.utcnow()`;
`target_time = datetime(now.year, now.month, now.day, input.hour, input.minute)`;
`if target_time < current_utc_time: target_time += timedelta(days=1)`.

Midnight of `now`'s calendar date is `usPerDay * (now.fdiv usPerDay)`
(floor division; `datetime` instants are nonnegative in this encoding). -/

def resolve_target_time (hour minute : Nat) (now : Int) : Int :=
  let target_time : Int :=
    usPerDay * (now.fdiv usPerDay) + usPerHour * hour + usPerMinute * minute
  if target_time < now then target_time + usPerDay else target_time

/-! ## `main.py` lines 531-615: series assembly and conservative resolution -/

/-- `all_reports = previous_reports + [nearest_report] + next_reports`
(`main.py` line 532).  `nearest_report` may be `None`, so the combined
Python list holds reports *or* `None`; the element type is `Option Report`. -/
def all_reports (weather_data : List (List Report)) (local_time : Int) :
    List (Option Report) :=
  match find_surrounding_weather_reports weather_data local_time with
  | (previous_reports, nearest_report, next_reports) =>
    previous_reports.map some ++ [nearest_report] ++ next_reports.map some

/-- Truncation of an instant to whole minutes: the effect of
`strftime('%Y-%m-%d %H:%M')` followed by re-parsing, and equally of
`.replace(second=0, microsecond=0)`. -/
def minuteFloor (t : Int) : Int := usPerMinute * (t.fdiv usPerMinute)

/-- One row of the data frame built in `main.py` lines 535-546: the
minute-truncated timestamp plus pressure and temperature. -/
structure Row where
  time : Int
  pressure : Int
  temperatureC : Int
deriving DecidableEq, Repr

/-- The loop at `main.py` lines 535-539.  Each entry of `all_reports` is
subscripted (`report['localDate']`); when the entry is `None` this raises an
uncaught `TypeError` (only `ValueError` is handled in `main`), modelled as
`none`. -/
def build_chart_rows : List (Option Report) → Option (List Row)
  | [] => some []
  | none :: _ => none
  | some r :: rest =>
    (build_chart_rows rest).map
      (fun rows => ⟨minuteFloor r.time, r.pressure, r.temperatureC⟩ :: rows)

/-- Outcome of the conservative text/plot value logic
(`main.py` lines 548-615): an exact-time match, the conservative
bracketed combination, or the out-of-range warning path (whose payload is
the earliest available time, or `none` for the "Not enough data" message). -/
inductive Outcome where
  | exact (pressure temperatureC : Int)
  | bracketed (pressure temperatureC : Int)
  | outOfRange (earliest : Option Int)
deriving DecidableEq, Repr

/-- `pandas.Series.idxmax` over the row times keeps the *first* row attaining
the maximum: a later row replaces the current best only when strictly
greater. -/
def pickMax (best x : Row) : Row := if best.time < x.time then x else best

/-- `pandas.Series.idxmin` over the row times keeps the *first* row attaining
the minimum. -/
def pickMin (best x : Row) : Row := if x.time < best.time then x else best

/-- `filtered_times[...].idxmax()` resolved to the row it denotes. -/
def firstMaxTime : List Row → Option Row
  | [] => none
  | r :: rest => some (rest.foldl pickMax r)

/-- `filtered_times[...].idxmin()` resolved to the row it denotes. -/
def firstMinTime : List Row → Option Row
  | [] => none
  | r :: rest => some (rest.foldl pickMin r)

/-- `df['Time'].min()` over minute-formatted strings: the least row time. -/
def minRowTime : List Row → Option Int
  | [] => none
  | r :: rest => some (rest.foldl (fun a x => min a x.time) r.time)

/-- The conservative value logic of `main.py` lines 548-615 on the data-frame
rows, with `input_time_local` the minute-truncated target local time:

* exact branch (lines 550-553): first row whose formatted time equals the
  formatted target (`df[df['Time'] == input_time_str].index[0]`);
* otherwise (lines 574-607): `prev_idx` = first maximiser among rows with
  `time <= input_time_local`, `next_idx` = first minimiser among rows with
  `time > input_time_local`, `crit_indices` collects the one or two rows
  (adding `next_idx` only when distinct from `prev_idx`), and when non-empty
  the result is the minimum pressure and maximum temperature over them;
* else (lines 608-615): the out-of-range warning with the earliest available
  time (`None` when the frame is empty). -/
def resolveValue (rows : List Row) (input_time_local : Int) : Outcome :=
  match rows.find? (fun r => r.time = input_time_local) with
  | some r => .exact r.pressure r.temperatureC
  | none =>
    let prev_row := firstMaxTime (rows.filter (fun r => r.time ≤ input_time_local))
    let next_row := firstMinTime (rows.filter (fun r => input_time_local < r.time))
    let crit : List Row :=
      (match prev_row with
       | some p => [p]
       | none => []) ++
      (match next_row with
       | some n => if prev_row = some n then [] else [n]
       | none => [])
    match crit with
    | [] => .outOfRange (minRowTime rows)
    | c :: cs =>
      .bracketed (cs.foldl (fun a x => min a x.pressure) c.pressure)
                 (cs.foldl (fun a x => max a x.temperatureC) c.temperatureC)

/-- The whole `main.py` path from the selector output to the conservative
value: build the data-frame rows from `all_reports` (possibly raising, hence
`Option`) and resolve.  -/
def resolve_conservative (weather_data : List (List Report)) (local_time : Int) :
    Option Outcome :=
  (build_chart_rows (all_reports weather_data local_time)).map
    (fun rows => resolveValue rows (minuteFloor local_time))

/-! ## Characterisation of the scan

`scanUpTo T k l` is the portion of `l` the scan actually visits when `k`
slots remain in the at-or-after buffer: it stops right after the `k`-th
element with timestamp at or after `T`. -/

def scanUpTo (T : Int) : Nat → List Report → List Report
  | _, [] => []
  | k, r :: rest =>
    if r.time < T then r :: scanUpTo T k rest
    else if k ≤ 1 then [r] else r :: scanUpTo T (k - 1) rest

/-- Boolean form of "strictly before the target". -/
def beforeB (T : Int) (r : Report) : Bool := decide (r.time < T)

/-- Boolean form of "at or after the target", exactly as the scan decides it
(negation of the branch condition `report_time < target_time`). -/
def afterB (T : Int) (r : Report) : Bool := !decide (r.time < T)

/-- Reference selector stated from the spec's description of the naive full
scan: keep the last 5 samples strictly before the target and the first 5
samples at or after the target, the nearest-at-or-after sample being the
first of the latter. -/
def naive_find_surrounding (weather_data : List (List Report)) (T : Int) :
    List Report × Option Report × List Report :=
  let samples := weather_data.flatten
  let before := samples.filter (fun r => decide (r.time < T))
  let atOrAfter := samples.filter (fun r => decide (T ≤ r.time))
  (before.drop (before.length - 5), atOrAfter.head?, atOrAfter.take 5)

theorem afterB_eq (T : Int) (r : Report) : afterB T r = decide (T ≤ r.time) := by
  by_cases h : r.time < T
  · simp [afterB, h, not_le.mpr h]
  · simp [afterB, h, not_lt.mp h]

theorem keepFirst_none_right (o : Option Report) : keepFirst o none = o := by
  cases o <;> rfl

theorem keepFirst_assoc (a b c : Option Report) :
    keepFirst (keepFirst a b) c = keepFirst a (keepFirst b c) := by
  cases a <;> cases b <;> rfl

theorem keepFirst_some_absorb (a : Option Report) (r : Report) (x : Option Report) :
    keepFirst (keepFirst a (some r)) x = keepFirst a (some r) := by
  cases a <;> rfl

theorem scanReports_nil (T : Int) (s : ScanState) : scanReports T s [] = s := rfl

theorem scanReports_cons (T : Int) (s : ScanState) (r : Report) (rest : List Report) :
    scanReports T s (r :: rest) =
      if 5 ≤ (scanReport T s r).next_reports.length
      then scanReport T s r
      else scanReports T (scanReport T s r) rest := rfl

theorem scanForecasts_nil (T : Int) (s : ScanState) : scanForecasts T s [] = s := rfl

theorem scanForecasts_cons (T : Int) (s : ScanState) (g : List Report)
    (gs : List (List Report)) :
    scanForecasts T s (g :: gs) =
      if 5 ≤ (scanReports T s g).next_reports.length
      then scanReports T s g
      else scanForecasts T (scanReports T s g) gs := rfl

theorem scanReports_eq (T : Int) (l : List Report) :
    ∀ s : ScanState, s.next_reports.length < 5 →
    scanReports T s l =
      { previous_reports :=
          s.previous_reports ++
            (scanUpTo T (5 - s.next_reports.length) l).filter (beforeB T)
        nearest_report :=
          keepFirst s.nearest_report
            ((scanUpTo T (5 - s.next_reports.length) l).find? (afterB T))
        next_reports :=
          s.next_reports ++
            (scanUpTo T (5 - s.next_reports.length) l).filter (afterB T) } := by
  induction l with
  | nil =>
    intro s _
    simp [scanReports_nil, scanUpTo, keepFirst_none_right]
  | cons r rest ih =>
    intro s hs
    rw [scanReports_cons]
    by_cases hr : r.time < T
    · have hb : beforeB T r = true := by simp [beforeB, hr]
      have ha : afterB T r = false := by simp [afterB, hr]
      have hstep : scanReport T s r =
          { s with previous_reports := s.previous_reports ++ [r] } := by
        simp [scanReport, hr]
      rw [hstep,
        if_neg (show ¬ 5 ≤
          ({ s with previous_reports := s.previous_reports ++ [r] } :
            ScanState).next_reports.length from not_le.mpr hs),
        ih _ (show ({ s with previous_reports := s.previous_reports ++ [r]} :
          ScanState).next_reports.length < 5 from hs)]
      have hscan : scanUpTo T (5 - s.next_reports.length) (r :: rest)
          = r :: scanUpTo T (5 - s.next_reports.length) rest := by
        simp [scanUpTo, hr]
      simp [hscan, hb, ha, List.filter_cons, List.find?_cons, List.append_assoc]
    · have hb : beforeB T r = false := by simp [beforeB, hr]
      have ha : afterB T r = true := by simp [afterB, hr]
      have hstep : scanReport T s r =
          { previous_reports := s.previous_reports
            nearest_report := keepFirst s.nearest_report (some r)
            next_reports := s.next_reports ++ [r] } := by
        simp [scanReport, hr]
      rw [hstep]
      by_cases hk : 5 ≤ s.next_reports.length + 1
      · -- the at-or-after buffer fills up: the scan stops at `r`
        have hk4 : s.next_reports.length = 4 := by omega
        rw [if_pos (show 5 ≤
            ({ previous_reports := s.previous_reports
               nearest_report := keepFirst s.nearest_report (some r)
               next_reports := s.next_reports ++ [r] } :
              ScanState).next_reports.length from by simp [hk4])]
        have hscan : scanUpTo T (5 - s.next_reports.length) (r :: rest) = [r] := by
          rw [hk4]; simp [scanUpTo, hr]
        rw [hscan]
        simp [hb, ha, List.filter_cons, List.find?_cons]
      · rw [if_neg (show ¬ 5 ≤
            ({ previous_reports := s.previous_reports
               nearest_report := keepFirst s.nearest_report (some r)
               next_reports := s.next_reports ++ [r] } :
              ScanState).next_reports.length from by simpa using hk)]
        rw [ih _ (show
            ({ previous_reports := s.previous_reports
               nearest_report := keepFirst s.nearest_report (some r)
               next_reports := s.next_reports ++ [r] } :
              ScanState).next_reports.length < 5 from by simp; omega)]
        have hsub : 5 - (s.next_reports ++ [r]).length
            = 5 - s.next_reports.length - 1 := by
          simp; omega
        have hscan : scanUpTo T (5 - s.next_reports.length) (r :: rest)
            = r :: scanUpTo T (5 - s.next_reports.length - 1) rest := by
          have h1 : ¬ (5 - s.next_reports.length ≤ 1) := by omega
          simp [scanUpTo, hr, h1]
        simp only [hsub]
        rw [hscan]
        simp [hb, ha, List.filter_cons, List.find?_cons, keepFirst_some_absorb,
          List.append_assoc]

theorem scanReports_append (T : Int) (a b : List Report) :
    ∀ s : ScanState, s.next_reports.length < 5 →
    scanReports T s (a ++ b) =
      (if 5 ≤ (scanReports T s a).next_reports.length
       then scanReports T s a
       else scanReports T (scanReports T s a) b) := by
  induction a with
  | nil =>
    intro s hs
    simp [scanReports_nil, not_le.mpr hs]
  | cons r rest ih =>
    intro s _
    rw [List.cons_append, scanReports_cons, scanReports_cons]
    by_cases hc : 5 ≤ (scanReport T s r).next_reports.length
    · simp [hc]
    · simp only [if_neg hc]
      exact ih _ (not_le.mp hc)

theorem scanForecasts_eq_flatten (T : Int) (groups : List (List Report)) :
    ∀ s : ScanState, s.next_reports.length < 5 →
    scanForecasts T s groups = scanReports T s groups.flatten := by
  induction groups with
  | nil => intro s _; simp [scanForecasts_nil, scanReports_nil]
  | cons g gs ih =>
    intro s hs
    rw [List.flatten_cons, scanReports_append T g gs.flatten s hs, scanForecasts_cons]
    by_cases hc : 5 ≤ (scanReports T s g).next_reports.length
    · simp [hc]
    · simp only [if_neg hc]
      exact ih _ (not_le.mp hc)

/-- The selector, rewritten through the visited portion of the flattened
report list. -/
theorem find_surrounding_eq (weather_data : List (List Report)) (T : Int) :
    find_surrounding_weather_reports weather_data T =
      (((scanUpTo T 5 weather_data.flatten).filter (beforeB T)).drop
         (((scanUpTo T 5 weather_data.flatten).filter (beforeB T)).length - 5),
       (scanUpTo T 5 weather_data.flatten).find? (afterB T),
       ((scanUpTo T 5 weather_data.flatten).filter (afterB T)).take 5) := by
  have h0 : (ScanState.mk [] none []).next_reports.length < 5 := by simp
  rw [find_surrounding_weather_reports, scanForecasts_eq_flatten T _ _ h0,
    scanReports_eq T _ _ h0]
  simp [keepFirst]

theorem scanUpTo_sublist (T : Int) (l : List Report) :
    ∀ k : Nat, (scanUpTo T k l).Sublist l := by
  induction l with
  | nil => intro k; simp [scanUpTo]
  | cons r rest ih =>
    intro k
    by_cases hr : r.time < T
    · simpa [scanUpTo, hr] using (ih k).cons₂ r
    · by_cases hk : k ≤ 1
      · simpa [scanUpTo, hr, hk] using (List.nil_sublist rest).cons₂ r
      · simpa [scanUpTo, hr, hk] using (ih (k - 1)).cons₂ r

theorem scanUpTo_filter_afterB (T : Int) (l : List Report) :
    ∀ k : Nat, (scanUpTo T (k + 1) l).filter (afterB T)
      = (l.filter (afterB T)).take (k + 1) := by
  induction l with
  | nil => intro k; simp [scanUpTo]
  | cons r rest ih =>
    intro k
    by_cases hr : r.time < T
    · have ha : afterB T r = false := by simp [afterB, hr]
      simp [scanUpTo, hr, List.filter_cons, ha, ih k]
    · have ha : afterB T r = true := by simp [afterB, hr]
      cases k with
      | zero => simp [scanUpTo, hr, List.filter_cons, ha]
      | succ k' =>
        have hk : ¬ (k' + 1 + 1 ≤ 1) := by omega
        simp [scanUpTo, hr, hk, List.filter_cons, ha, ih k']

theorem scanUpTo_find_afterB (T : Int) (l : List Report) :
    ∀ k : Nat, (scanUpTo T (k + 1) l).find? (afterB T) = l.find? (afterB T) := by
  induction l with
  | nil => intro k; simp [scanUpTo]
  | cons r rest ih =>
    intro k
    by_cases hr : r.time < T
    · have ha : afterB T r = false := by simp [afterB, hr]
      simp [scanUpTo, hr, List.find?_cons, ha, ih k]
    · have ha : afterB T r = true := by simp [afterB, hr]
      cases k with
      | zero => simp [scanUpTo, hr, List.find?_cons, ha]
      | succ k' =>
        have hk : ¬ (k' + 1 + 1 ≤ 1) := by omega
        simp [scanUpTo, hr, hk, List.find?_cons, ha]

theorem scanUpTo_filter_beforeB (T : Int) (l : List Report)
    (hsorted : l.Pairwise (fun a b => a.time ≤ b.time)) :
    ∀ k : Nat, (scanUpTo T k l).filter (beforeB T) = l.filter (beforeB T) := by
  induction l with
  | nil => intro k; simp [scanUpTo]
  | cons r rest ih =>
    intro k
    have hrel : ∀ x ∈ rest, r.time ≤ x.time := (List.pairwise_cons.mp hsorted).1
    have htail : rest.Pairwise (fun a b => a.time ≤ b.time) :=
      (List.pairwise_cons.mp hsorted).2
    by_cases hr : r.time < T
    · have hb : beforeB T r = true := by simp [beforeB, hr]
      simp [scanUpTo, hr, List.filter_cons, hb, ih htail k]
    · have hb : beforeB T r = false := by simp [beforeB, hr]
      have hrest : rest.filter (beforeB T) = [] := by
        rw [List.filter_eq_nil_iff]
        intro x hx
        have : T ≤ x.time := le_trans (not_lt.mp hr) (hrel x hx)
        simp [beforeB, not_lt.mpr this]
      by_cases hk : k ≤ 1
      · simp [scanUpTo, hr, hk, List.filter_cons, hb, hrest]
      · simp [scanUpTo, hr, hk, List.filter_cons, hb, ih htail (k - 1), hrest]

theorem find?_eq_head_filter {α : Type} (p : α → Bool) (l : List α) :
    l.find? p = (l.filter p).head? := by
  induction l with
  | nil => simp
  | cons a rest ih =>
    by_cases h : p a
    · rw [List.find?_cons_of_pos _ h, List.filter_cons_of_pos h, List.head?_cons]
    · rw [List.find?_cons_of_neg _ h, List.filter_cons_of_neg h, ih]

theorem head?_take_five {α : Type} (l : List α) : (l.take 5).head? = l.head? := by
  cases l <;> simp

/-- **C1**: for every sample sequence in non-decreasing timestamp order and
every target local time `T`, the window selector returns: `previous` of
length at most 5 with every element's timestamp strictly before `T`; `next`
of length at most 5 with every element's timestamp at or after `T`;
`nearestAtOrAfter` equal to the first element of `next` when `next` is
non-empty and `none` exactly when `next` is empty; `previous` and `next`
share no element, and every previous/next pair brackets `T` (so in
particular the latest previous timestamp is `< T` and `T ≤` the earliest
next timestamp). -/
theorem find_surrounding_window_spec (weather_data : List (List Report)) (T : Int)
    (hsorted : weather_data.flatten.Pairwise (fun a b => a.time ≤ b.time)) :
    (find_surrounding_weather_reports weather_data T).1.length ≤ 5 ∧
    (find_surrounding_weather_reports weather_data T).2.2.length ≤ 5 ∧
    (∀ r ∈ (find_surrounding_weather_reports weather_data T).1, r.time < T) ∧
    (∀ r ∈ (find_surrounding_weather_reports weather_data T).2.2, T ≤ r.time) ∧
    (find_surrounding_weather_reports weather_data T).2.1
      = (find_surrounding_weather_reports weather_data T).2.2.head? ∧
    ((find_surrounding_weather_reports weather_data T).2.1 = none ↔
      (find_surrounding_weather_reports weather_data T).2.2 = []) ∧
    (∀ p ∈ (find_surrounding_weather_reports weather_data T).1,
      p ∉ (find_surrounding_weather_reports weather_data T).2.2) ∧
    (∀ p ∈ (find_surrounding_weather_reports weather_data T).1,
      ∀ n ∈ (find_surrounding_weather_reports weather_data T).2.2,
        p.time < T ∧ T ≤ n.time) := by
  have _ := hsorted
  rw [find_surrounding_eq]
  dsimp only
  set scanned := scanUpTo T 5 weather_data.flatten with hs
  set B := scanned.filter (beforeB T) with hB
  set A := scanned.filter (afterB T) with hA
  have hprev : ∀ r ∈ B.drop (B.length - 5), r.time < T := by
    intro r hr
    have hrB : r ∈ B := (List.drop_sublist _ _).subset hr
    have := (List.mem_filter.mp hrB).2
    simpa [beforeB] using this
  have hnext : ∀ r ∈ A.take 5, T ≤ r.time := by
    intro r hr
    have hrA : r ∈ A := (List.take_sublist _ _).subset hr
    have := (List.mem_filter.mp hrA).2
    rw [afterB_eq] at this
    simpa using this
  have hhead : scanned.find? (afterB T) = (A.take 5).head? := by
    rw [find?_eq_head_filter, head?_take_five, hA]
  refine ⟨?_, ?_, hprev, hnext, hhead, ?_, ?_, ?_⟩
  · rw [List.length_drop]; omega
  · rw [List.length_take]; exact min_le_left _ _
  · rw [hhead]
    constructor
    · intro h
      rcases List.take_eq_nil_iff.mp (List.head?_eq_none_iff.mp h) with h5 | hAnil
      · omega
      · simp [hAnil]
    · intro h; rw [h]; rfl
  · intro p hp hpn
    exact absurd (hnext p hpn) (not_le.mpr (hprev p hp))
  · intro p hp n hn
    exact ⟨hprev p hp, hnext n hn⟩

theorem filter_atOrAfter_eq (T : Int) (l : List Report) :
    l.filter (fun r => decide (T ≤ r.time)) = l.filter (afterB T) :=
  List.filter_congr (fun x _ => by rw [afterB_eq])

/-- **C7**: on input in non-decreasing timestamp order, the implemented
single forward pass — early exit once the at-or-after buffer reaches 5,
then truncation of the before buffer to its last 5 elements and of the
at-or-after buffer to its first 5 — returns the same window as the naive
full scan keeping the last 5 samples strictly before the target and the
first 5 samples at or after it. -/
theorem find_surrounding_refines_naive (weather_data : List (List Report)) (T : Int)
    (hsorted : weather_data.flatten.Pairwise (fun a b => a.time ≤ b.time)) :
    find_surrounding_weather_reports weather_data T
      = naive_find_surrounding weather_data T := by
  rw [find_surrounding_eq, naive_find_surrounding]
  have hbefore : (fun r => decide (r.time < T)) = beforeB T := rfl
  have hBeq : (scanUpTo T 5 weather_data.flatten).filter (beforeB T)
      = weather_data.flatten.filter (beforeB T) :=
    scanUpTo_filter_beforeB T weather_data.flatten hsorted 5
  have hAeq : (scanUpTo T 5 weather_data.flatten).filter (afterB T)
      = (weather_data.flatten.filter (afterB T)).take 5 :=
    scanUpTo_filter_afterB T weather_data.flatten 4
  have hfind : (scanUpTo T 5 weather_data.flatten).find? (afterB T)
      = weather_data.flatten.find? (afterB T) :=
    scanUpTo_find_afterB T weather_data.flatten 4
  rw [hbefore, hBeq, filter_atOrAfter_eq, hAeq, hfind, List.take_take,
    find?_eq_head_filter]
  simp

/-- **C10**: for every input report sequence, sorted or not, the selector
guarantees: every returned previous report is strictly before the target,
every returned next report is at or after the target, both returned lists
are order-preserving subsequences of the scanned input, and the nearest
report is the first report in scan order with timestamp at or after the
target (`none` exactly when `next` is empty). -/
theorem find_surrounding_partition (weather_data : List (List Report)) (T : Int) :
    ((find_surrounding_weather_reports weather_data T).1).Sublist
        weather_data.flatten ∧
    ((find_surrounding_weather_reports weather_data T).2.2).Sublist
        weather_data.flatten ∧
    (∀ r ∈ (find_surrounding_weather_reports weather_data T).1, r.time < T) ∧
    (∀ r ∈ (find_surrounding_weather_reports weather_data T).2.2, T ≤ r.time) ∧
    (find_surrounding_weather_reports weather_data T).2.1
      = weather_data.flatten.find? (fun r => decide (T ≤ r.time)) ∧
    ((find_surrounding_weather_reports weather_data T).2.1 = none ↔
      (find_surrounding_weather_reports weather_data T).2.2 = []) := by
  rw [find_surrounding_eq]
  dsimp only
  set scanned := scanUpTo T 5 weather_data.flatten with hs
  set B := scanned.filter (beforeB T) with hB
  set A := scanned.filter (afterB T) with hA
  have hscan : scanned.Sublist weather_data.flatten := scanUpTo_sublist T _ 5
  have hfind2 : (fun r => decide (T ≤ r.time)) = afterB T := by
    funext r; rw [afterB_eq]
  refine ⟨?_, ?_, ?_, ?_, ?_, ?_⟩
  · exact ((List.drop_sublist _ _).trans (List.filter_sublist _)).trans hscan
  · exact ((List.take_sublist _ _).trans (List.filter_sublist _)).trans hscan
  · intro r hr
    have hrB : r ∈ B := (List.drop_sublist _ _).subset hr
    simpa [beforeB] using (List.mem_filter.mp hrB).2
  · intro r hr
    have hrA : r ∈ A := (List.take_sublist _ _).subset hr
    have := (List.mem_filter.mp hrA).2
    rw [afterB_eq] at this
    simpa using this
  · rw [hfind2, hs]
    exact scanUpTo_find_afterB T weather_data.flatten 4
  · rw [find?_eq_head_filter, ← hA, List.head?_eq_none_iff, List.take_eq_nil_iff]
    constructor
    · exact fun h => Or.inr h
    · rintro (h5 | h)
      · exact absurd h5 (by decide)
      · exact h

theorem all_reports_eq (weather_data : List (List Report)) (T : Int) :
    all_reports weather_data T =
      (find_surrounding_weather_reports weather_data T).1.map some ++
        [(find_surrounding_weather_reports weather_data T).2.1] ++
        (find_surrounding_weather_reports weather_data T).2.2.map some := by
  rcases hfsr : find_surrounding_weather_reports weather_data T with ⟨p, nr, nx⟩
  rw [all_reports, hfsr]

/-- **C9**: whenever at least one sample's timestamp is at or after the
target local time, the combined series
`previous_reports + [nearest_report] + next_reports` handed to the chart
and value-resolution step contains the nearest-at-or-after sample twice:
it is both the middle element and the first element of `next_reports`. -/
theorem all_reports_duplicates_nearest (weather_data : List (List Report)) (T : Int)
    (h : ∃ r ∈ weather_data.flatten, T ≤ r.time) :
    ∃ n : Report,
      (find_surrounding_weather_reports weather_data T).2.1 = some n ∧
      (find_surrounding_weather_reports weather_data T).2.2.head? = some n ∧
      2 ≤ (all_reports weather_data T).count (some n) := by
  obtain ⟨r, hrmem, hrle⟩ := h
  have hne : weather_data.flatten.filter (afterB T) ≠ [] := by
    intro hnil
    have hmem : r ∈ weather_data.flatten.filter (afterB T) :=
      List.mem_filter.mpr ⟨hrmem, by rw [afterB_eq]; simpa using hrle⟩
    rw [hnil] at hmem
    exact List.not_mem_nil r hmem
  obtain ⟨n, F, hF⟩ := List.exists_cons_of_ne_nil hne
  have hnearest : (find_surrounding_weather_reports weather_data T).2.1 = some n := by
    rw [find_surrounding_eq]
    dsimp only
    rw [scanUpTo_find_afterB T weather_data.flatten 4, find?_eq_head_filter, hF]
    rfl
  have hnexteq : (find_surrounding_weather_reports weather_data T).2.2
      = n :: F.take 4 := by
    rw [find_surrounding_eq]
    dsimp only
    rw [scanUpTo_filter_afterB T weather_data.flatten 4, List.take_take, hF]
    rfl
  refine ⟨n, hnearest, by rw [hnexteq]; rfl, ?_⟩
  rw [all_reports_eq, hnearest, hnexteq]
  rw [List.count_append, List.count_append]
  have h1 : ([some n] : List (Option Report)).count (some n) = 1 := by simp
  have h2 : ((n :: F.take 4).map some).count (some n)
      = ((F.take 4).map some).count (some n) + 1 := by
    rw [List.map_cons, List.count_cons_self]
  omega

/-! ## Properties of the idxmax/idxmin models -/

theorem foldl_pickMax_mem (l : List Row) :
    ∀ a : Row, l.foldl pickMax a = a ∨ l.foldl pickMax a ∈ l := by
  induction l with
  | nil => intro a; left; rfl
  | cons x xs ih =>
    intro a
    rw [List.foldl_cons]
    rcases ih (pickMax a x) with h | h
    · rw [h]
      by_cases hc : a.time < x.time
      · right; simp only [pickMax, if_pos hc]; exact List.mem_cons_self x xs
      · left; simp only [pickMax, if_neg hc]
    · right; exact List.mem_cons_of_mem x h

theorem foldl_pickMax_le (l : List Row) :
    ∀ a : Row, a.time ≤ (l.foldl pickMax a).time ∧
      ∀ x ∈ l, x.time ≤ (l.foldl pickMax a).time := by
  induction l with
  | nil => intro a; exact ⟨le_refl _, by simp⟩
  | cons y ys ih =>
    intro a
    rw [List.foldl_cons]
    obtain ⟨h1, h2⟩ := ih (pickMax a y)
    have hay : a.time ≤ (pickMax a y).time := by
      by_cases hc : a.time < y.time
      · simp only [pickMax, if_pos hc]; exact le_of_lt hc
      · simp only [pickMax, if_neg hc]; exact le_refl _
    have hyy : y.time ≤ (pickMax a y).time := by
      by_cases hc : a.time < y.time
      · simp only [pickMax, if_pos hc]; exact le_refl _
      · simp only [pickMax, if_neg hc]; exact not_lt.mp hc
    refine ⟨le_trans hay h1, ?_⟩
    intro x hx
    rcases List.mem_cons.mp hx with rfl | hx'
    · exact le_trans hyy h1
    · exact h2 x hx'

theorem foldl_pickMin_mem (l : List Row) :
    ∀ a : Row, l.foldl pickMin a = a ∨ l.foldl pickMin a ∈ l := by
  induction l with
  | nil => intro a; left; rfl
  | cons x xs ih =>
    intro a
    rw [List.foldl_cons]
    rcases ih (pickMin a x) with h | h
    · rw [h]
      by_cases hc : x.time < a.time
      · right; simp only [pickMin, if_pos hc]; exact List.mem_cons_self x xs
      · left; simp only [pickMin, if_neg hc]
    · right; exact List.mem_cons_of_mem x h

theorem foldl_pickMin_le (l : List Row) :
    ∀ a : Row, (l.foldl pickMin a).time ≤ a.time ∧
      ∀ x ∈ l, (l.foldl pickMin a).time ≤ x.time := by
  induction l with
  | nil => intro a; exact ⟨le_refl _, by simp⟩
  | cons y ys ih =>
    intro a
    rw [List.foldl_cons]
    obtain ⟨h1, h2⟩ := ih (pickMin a y)
    have hay : (pickMin a y).time ≤ a.time := by
      by_cases hc : y.time < a.time
      · simp only [pickMin, if_pos hc]; exact le_of_lt hc
      · simp only [pickMin, if_neg hc]; exact le_refl _
    have hyy : (pickMin a y).time ≤ y.time := by
      by_cases hc : y.time < a.time
      · simp only [pickMin, if_pos hc]; exact le_refl _
      · simp only [pickMin, if_neg hc]; exact not_lt.mp hc
    refine ⟨le_trans h1 hay, ?_⟩
    intro x hx
    rcases List.mem_cons.mp hx with rfl | hx'
    · exact le_trans h1 hyy
    · exact h2 x hx'

theorem firstMaxTime_spec (l : List Row) (p : Row) (hp : firstMaxTime l = some p) :
    p ∈ l ∧ ∀ x ∈ l, x.time ≤ p.time := by
  cases l with
  | nil => simp [firstMaxTime] at hp
  | cons q qs =>
    have hpe : qs.foldl pickMax q = p := by
      have := hp
      rw [firstMaxTime] at this
      exact Option.some.inj this
    subst hpe
    constructor
    · rcases foldl_pickMax_mem qs q with h | h
      · rw [h]; exact List.mem_cons_self q qs
      · exact List.mem_cons_of_mem q h
    · intro x hx
      obtain ⟨h1, h2⟩ := foldl_pickMax_le qs q
      rcases List.mem_cons.mp hx with rfl | hx'
      · exact h1
      · exact h2 x hx'

theorem firstMinTime_spec (l : List Row) (n : Row) (hn : firstMinTime l = some n) :
    n ∈ l ∧ ∀ x ∈ l, n.time ≤ x.time := by
  cases l with
  | nil => simp [firstMinTime] at hn
  | cons q qs =>
    have hne : qs.foldl pickMin q = n := by
      have := hn
      rw [firstMinTime] at this
      exact Option.some.inj this
    subst hne
    constructor
    · rcases foldl_pickMin_mem qs q with h | h
      · rw [h]; exact List.mem_cons_self q qs
      · exact List.mem_cons_of_mem q h
    · intro x hx
      obtain ⟨h1, h2⟩ := foldl_pickMin_le qs q
      rcases List.mem_cons.mp hx with rfl | hx'
      · exact h1
      · exact h2 x hx'

/-- **C4**: if some row's timestamp equals the target local time at minute
granularity, the value resolver returns that row's exact pressure and
temperature (the first such row, per `df[...].index[0]`), and never the
bracketed min/max combination. -/
theorem resolveValue_exact_spec (rows : List Row) (m : Int)
    (h : ∃ r ∈ rows, r.time = m) :
    ∃ r ∈ rows, r.time = m ∧
      resolveValue rows m = Outcome.exact r.pressure r.temperatureC ∧
      ∀ p t, resolveValue rows m ≠ Outcome.bracketed p t := by
  have hfind : (rows.find? (fun r => decide (r.time = m))).isSome := by
    rw [List.find?_isSome]
    obtain ⟨r, hr, hrm⟩ := h
    exact ⟨r, hr, by simp [hrm]⟩
  obtain ⟨r0, hr0⟩ := Option.isSome_iff_exists.mp hfind
  have hmem := List.mem_of_find?_eq_some hr0
  have htime : r0.time = m := by simpa using List.find?_some hr0
  have hres : resolveValue rows m = Outcome.exact r0.pressure r0.temperatureC := by
    simp only [resolveValue, hr0]
  refine ⟨r0, hmem, htime, hres, ?_⟩
  intro p t hcontra
  rw [hres] at hcontra
  exact Outcome.noConfusion hcontra

/-- **C3**: when no row's timestamp equals the target at minute granularity
but both bracketing rows exist, the resolver returns the conservative
combination: the minimum of the two pressures and the maximum of the two
temperatures, taken from a chronologically-last previous row and a
chronologically-first next row — never an interpolation. -/
theorem resolveValue_bracketed_spec (rows : List Row) (m : Int)
    (hno : ∀ r ∈ rows, r.time ≠ m)
    (hprev : ∃ r ∈ rows, r.time < m)
    (hnext : ∃ r ∈ rows, m < r.time) :
    ∃ r1 ∈ rows, ∃ r2 ∈ rows,
      r1.time < m ∧ (∀ x ∈ rows, x.time < m → x.time ≤ r1.time) ∧
      m < r2.time ∧ (∀ x ∈ rows, m < x.time → r2.time ≤ x.time) ∧
      resolveValue rows m =
        Outcome.bracketed (min r1.pressure r2.pressure)
          (max r1.temperatureC r2.temperatureC) := by
  have hfind : rows.find? (fun r => decide (r.time = m)) = none := by
    rw [List.find?_eq_none]
    intro x hx
    simp [hno x hx]
  obtain ⟨rp, hrpmem, hrplt⟩ := hprev
  obtain ⟨rn, hrnmem, hrngt⟩ := hnext
  have hPne : rows.filter (fun r => decide (r.time ≤ m)) ≠ [] := by
    intro hnil
    have hmem : rp ∈ rows.filter (fun r => decide (r.time ≤ m)) :=
      List.mem_filter.mpr ⟨hrpmem, by simp [le_of_lt hrplt]⟩
    rw [hnil] at hmem; exact List.not_mem_nil rp hmem
  have hNne : rows.filter (fun r => decide (m < r.time)) ≠ [] := by
    intro hnil
    have hmem : rn ∈ rows.filter (fun r => decide (m < r.time)) :=
      List.mem_filter.mpr ⟨hrnmem, by simp [hrngt]⟩
    rw [hnil] at hmem; exact List.not_mem_nil rn hmem
  obtain ⟨q, qs, hq⟩ := List.exists_cons_of_ne_nil hPne
  obtain ⟨w, ws, hw⟩ := List.exists_cons_of_ne_nil hNne
  have hPmax : firstMaxTime (rows.filter (fun r => decide (r.time ≤ m)))
      = some (qs.foldl pickMax q) := by rw [hq]; rfl
  have hNmin : firstMinTime (rows.filter (fun r => decide (m < r.time)))
      = some (ws.foldl pickMin w) := by rw [hw]; rfl
  obtain ⟨hpmemP, hpmax⟩ := firstMaxTime_spec _ _ hPmax
  obtain ⟨hnmemN, hnmin⟩ := firstMinTime_spec _ _ hNmin
  set p := qs.foldl pickMax q
  set n := ws.foldl pickMin w
  have hpmem : p ∈ rows := (List.mem_filter.mp hpmemP).1
  have hple : p.time ≤ m := by simpa using (List.mem_filter.mp hpmemP).2
  have hplt : p.time < m := lt_of_le_of_ne hple (hno p hpmem)
  have hnmem : n ∈ rows := (List.mem_filter.mp hnmemN).1
  have hngt : m < n.time := by simpa using (List.mem_filter.mp hnmemN).2
  have hpn : ¬ ((some p : Option Row) = some n) := by
    simp only [Option.some.injEq]
    intro hEq
    rw [hEq] at hplt
    exact absurd hngt (not_lt.mpr (le_of_lt hplt))
  have hpmax' : ∀ x ∈ rows, x.time < m → x.time ≤ p.time := by
    intro x hx hxm
    exact hpmax x (List.mem_filter.mpr ⟨hx, by simp [le_of_lt hxm]⟩)
  have hnmin' : ∀ x ∈ rows, m < x.time → n.time ≤ x.time := by
    intro x hx hxm
    exact hnmin x (List.mem_filter.mpr ⟨hx, by simp [hxm]⟩)
  refine ⟨p, hpmem, n, hnmem, hplt, hpmax', hngt, hnmin', ?_⟩
  simp only [resolveValue, hfind, hPmax, hNmin, if_neg hpn]
  simp [List.foldl_cons, List.foldl_nil]

/-- **C6** (amended): with no exact-minute match, the resolver returns
`OutOfRange` only when *neither* bracketing side is available (the row set
is empty); when exactly one side is available it returns that single
boundary row's pressure and temperature as the degenerate min/max
combination, not `OutOfRange`. -/
theorem resolveValue_one_sided (rows : List Row) (m : Int)
    (hno : ∀ r ∈ rows, r.time ≠ m) :
    (rows = [] → resolveValue rows m = Outcome.outOfRange none) ∧
    (rows ≠ [] → (∀ r ∈ rows, r.time < m) →
      ∃ r1 ∈ rows, (∀ x ∈ rows, x.time ≤ r1.time) ∧
        resolveValue rows m = Outcome.bracketed r1.pressure r1.temperatureC) ∧
    (rows ≠ [] → (∀ r ∈ rows, m < r.time) →
      ∃ r2 ∈ rows, (∀ x ∈ rows, r2.time ≤ x.time) ∧
        resolveValue rows m = Outcome.bracketed r2.pressure r2.temperatureC) := by
  have hfind : rows.find? (fun r => decide (r.time = m)) = none := by
    rw [List.find?_eq_none]
    intro x hx
    simp [hno x hx]
  refine ⟨?_, ?_, ?_⟩
  · intro hnil; subst hnil; rfl
  · intro hne hall
    have hP : rows.filter (fun r => decide (r.time ≤ m)) = rows :=
      List.filter_eq_self.mpr (fun x hx => by simp [le_of_lt (hall x hx)])
    have hN : rows.filter (fun r => decide (m < r.time)) = [] :=
      List.filter_eq_nil_iff.mpr
        (fun x hx => by simp [not_lt.mpr (le_of_lt (hall x hx))])
    obtain ⟨q, qs, hq⟩ := List.exists_cons_of_ne_nil hne
    have hPmax : firstMaxTime (rows.filter (fun r => decide (r.time ≤ m)))
        = some (qs.foldl pickMax q) := by rw [hP, hq]; rfl
    have hNmin : firstMinTime (rows.filter (fun r => decide (m < r.time)))
        = none := by rw [hN]; rfl
    obtain ⟨hpmem, hpmax⟩ := firstMaxTime_spec _ _ hPmax
    rw [hP] at hpmem hpmax
    refine ⟨qs.foldl pickMax q, hpmem, hpmax, ?_⟩
    simp only [resolveValue, hfind, hPmax, hNmin]
    simp
  · intro hne hall
    have hP : rows.filter (fun r => decide (r.time ≤ m)) = [] :=
      List.filter_eq_nil_iff.mpr
        (fun x hx => by simp [not_le.mpr (hall x hx)])
    have hN : rows.filter (fun r => decide (m < r.time)) = rows :=
      List.filter_eq_self.mpr (fun x hx => by simp [hall x hx])
    obtain ⟨q, qs, hq⟩ := List.exists_cons_of_ne_nil hne
    have hPmax : firstMaxTime (rows.filter (fun r => decide (r.time ≤ m)))
        = none := by rw [hP]; rfl
    have hNmin : firstMinTime (rows.filter (fun r => decide (m < r.time)))
        = some (qs.foldl pickMin q) := by rw [hN, hq]; rfl
    obtain ⟨hnmem, hnmin⟩ := firstMinTime_spec _ _ hNmin
    rw [hN] at hnmem hnmin
    refine ⟨qs.foldl pickMin q, hnmem, hnmin, ?_⟩
    simp only [resolveValue, hfind, hPmax, hNmin]
    simp

/-- **C6** (counterexample to the claim as stated): a single row one minute
after the target, no exact match, only the "next" side available — the
claim mandates `OutOfRange`, but the resolver returns the row's own values
as the bracketed combination. -/
theorem resolveValue_one_sided_counterexample :
    resolveValue [⟨60000000, 1000, 20⟩] 0 = Outcome.bracketed 1000 20 ∧
    (⟨60000000, 1000, 20⟩ : Row).time ≠ 0 ∧
    resolveValue [⟨60000000, 1000, 20⟩] 0 ≠ Outcome.outOfRange (some 60000000) ∧
    resolveValue [⟨60000000, 1000, 20⟩] 0 ≠ Outcome.outOfRange none := by
  refine ⟨by decide, by decide, by decide, by decide⟩

/-! ## Target-time resolution, offset round trip, out-of-range behaviour -/

/-- **C2** (counterexample to the claim as stated): with `now` exactly
12:00:00 on 2024-01-01 (day 738885 since the epoch) and entered time 1200,
the candidate equals the minute truncation of `now`, so it is "at or before
`nowUtc` at minute granularity" and the claim mandates advancing one day;
the code compares `target_time < current_utc_time` at full precision and
does not advance. -/
theorem resolve_target_time_counterexample :
    usPerDay * ((usPerDay * 738885 + usPerHour * 12).fdiv usPerDay)
        + usPerHour * 12 + usPerMinute * 0
      ≤ minuteFloor (usPerDay * 738885 + usPerHour * 12) ∧
    resolve_target_time 12 0 (usPerDay * 738885 + usPerHour * 12)
      = usPerDay * 738885 + usPerHour * 12 ∧
    ¬ resolve_target_time 12 0 (usPerDay * 738885 + usPerHour * 12)
        = usPerDay * 738885 + usPerHour * 12 + usPerDay := by
  refine ⟨by decide, by decide, by decide⟩

/-- **C2** (amended): `resolve_target_time` builds its candidate on the
current UTC calendar date from the entered hour and minute, advances it by
exactly one day precisely when the candidate is chronologically strictly
before `now` at full precision (which coincides with the claimed
minute-granularity at-or-before test whenever `now` is not exactly on a
minute boundary equal to the candidate), never advances more than once, and
satisfies both example scenarios. -/
theorem resolve_target_time_spec (hour minute : Nat) (now : Int)
    (hhour : hour < 24) (hminute : minute < 60) :
    (usPerDay * (now.fdiv usPerDay) + usPerHour * hour + usPerMinute * minute < now →
      resolve_target_time hour minute now =
        usPerDay * (now.fdiv usPerDay) + usPerHour * hour + usPerMinute * minute
          + usPerDay) ∧
    (now ≤ usPerDay * (now.fdiv usPerDay) + usPerHour * hour + usPerMinute * minute →
      resolve_target_time hour minute now =
        usPerDay * (now.fdiv usPerDay) + usPerHour * hour + usPerMinute * minute) ∧
    resolve_target_time 0 0 (usPerDay * 738885 + usPerHour * 23 + usPerMinute * 59)
      = usPerDay * 738886 ∧
    resolve_target_time 12 0 (usPerDay * 738885 + usPerHour * 6)
      = usPerDay * 738885 + usPerHour * 12 := by
  have _ := hhour
  have _ := hminute
  refine ⟨?_, ?_, by decide, by decide⟩
  · intro h
    simp only [resolve_target_time]
    rw [if_pos h]
  · intro h
    simp only [resolve_target_time]
    rw [if_neg (not_lt.mpr h)]

/-- **C8**: for every instant and every offset — the offset modelled by its
exact `timedelta` microsecond image, which covers fractional and negative
hour offsets — converting UTC to local and back is the identity. -/
theorem convert_round_trip (utc_time offset_delta : Int) :
    convert_local_to_utc (convert_utc_to_local utc_time offset_delta) offset_delta
      = utc_time := by
  simp only [convert_utc_to_local, convert_local_to_utc]
  omega

/-- **C5** (the code evaluated at the failing inputs): when no sample is at
or after the target — empty input, or every sample strictly before — the
selector itself does return the typed `([], none, [])` / `none` outcome,
but `main` then places `None` into `all_reports` and the chart-row loop
subscripts it, raising an uncaught `TypeError` (modelled by
`build_chart_rows`/`resolve_conservative` returning `none`) instead of
reaching the typed `OutOfRange` warning path. -/
theorem out_of_range_crashes :
    find_surrounding_weather_reports [] 0 = ([], none, []) ∧
    all_reports [] 0 = [none] ∧
    resolve_conservative [] 0 = none ∧
    find_surrounding_weather_reports [[⟨0, 1000, 20⟩]] 60000000
      = ([⟨0, 1000, 20⟩], none, []) ∧
    resolve_conservative [[⟨0, 1000, 20⟩]] 60000000 = none := by
  refine ⟨by decide, by decide, by decide, by decide, by decide⟩

/-! ## Concrete-input witnesses -/

theorem find_surrounding_window_spec_witness :
    ([[(⟨0, 1000, 10⟩ : Report), ⟨120000000, 1005, 12⟩]].flatten.Pairwise
        (fun a b => a.time ≤ b.time)) ∧
    (find_surrounding_weather_reports
        [[(⟨0, 1000, 10⟩ : Report), ⟨120000000, 1005, 12⟩]] 60000000).1.length ≤ 5 ∧
    (find_surrounding_weather_reports
        [[(⟨0, 1000, 10⟩ : Report), ⟨120000000, 1005, 12⟩]] 60000000).2.1
      = (find_surrounding_weather_reports
        [[(⟨0, 1000, 10⟩ : Report), ⟨120000000, 1005, 12⟩]] 60000000).2.2.head? :=
  ⟨by decide,
   (find_surrounding_window_spec _ _ (by decide)).1,
   (find_surrounding_window_spec _ _ (by decide)).2.2.2.2.1⟩

theorem find_surrounding_refines_naive_witness :
    find_surrounding_weather_reports
        [[(⟨0, 1000, 10⟩ : Report), ⟨120000000, 1005, 12⟩]] 60000000
      = naive_find_surrounding
        [[(⟨0, 1000, 10⟩ : Report), ⟨120000000, 1005, 12⟩]] 60000000 :=
  find_surrounding_refines_naive _ _ (by decide)

theorem all_reports_duplicates_nearest_witness :
    (∃ r ∈ [[(⟨0, 1000, 10⟩ : Report)]].flatten, (0 : Int) ≤ r.time) ∧
    (∃ n : Report,
      (find_surrounding_weather_reports [[(⟨0, 1000, 10⟩ : Report)]] 0).2.1
        = some n ∧
      (find_surrounding_weather_reports [[(⟨0, 1000, 10⟩ : Report)]] 0).2.2.head?
        = some n ∧
      2 ≤ (all_reports [[(⟨0, 1000, 10⟩ : Report)]] 0).count (some n)) :=
  ⟨⟨⟨0, 1000, 10⟩, by decide, by decide⟩,
   all_reports_duplicates_nearest _ _ ⟨⟨0, 1000, 10⟩, by decide, by decide⟩⟩

theorem resolveValue_exact_spec_witness :
    (∃ r ∈ [(⟨36000000000, 1010, 20⟩ : Row), ⟨37800000000, 1008, 21⟩,
        ⟨39600000000, 1005, 23⟩], r.time = 37800000000) ∧
    (∃ r ∈ [(⟨36000000000, 1010, 20⟩ : Row), ⟨37800000000, 1008, 21⟩,
        ⟨39600000000, 1005, 23⟩], r.time = 37800000000 ∧
      resolveValue [⟨36000000000, 1010, 20⟩, ⟨37800000000, 1008, 21⟩,
          ⟨39600000000, 1005, 23⟩] 37800000000
        = Outcome.exact r.pressure r.temperatureC ∧
      ∀ p t, resolveValue [⟨36000000000, 1010, 20⟩, ⟨37800000000, 1008, 21⟩,
          ⟨39600000000, 1005, 23⟩] 37800000000 ≠ Outcome.bracketed p t) ∧
    resolveValue [(⟨36000000000, 1010, 20⟩ : Row), ⟨37800000000, 1008, 21⟩,
        ⟨39600000000, 1005, 23⟩] 37800000000 = Outcome.exact 1008 21 :=
  ⟨by decide, resolveValue_exact_spec _ _ (by decide), by decide⟩

theorem resolveValue_bracketed_spec_witness :
    (∀ r ∈ [(⟨36000000000, 1010, 20⟩ : Row), ⟨37800000000, 1008, 21⟩,
        ⟨39600000000, 1005, 23⟩], r.time ≠ 36900000000) ∧
    (∃ r ∈ [(⟨36000000000, 1010, 20⟩ : Row), ⟨37800000000, 1008, 21⟩,
        ⟨39600000000, 1005, 23⟩], r.time < 36900000000) ∧
    (∃ r ∈ [(⟨36000000000, 1010, 20⟩ : Row), ⟨37800000000, 1008, 21⟩,
        ⟨39600000000, 1005, 23⟩], 36900000000 < r.time) ∧
    (∃ r1 ∈ [(⟨36000000000, 1010, 20⟩ : Row), ⟨37800000000, 1008, 21⟩,
        ⟨39600000000, 1005, 23⟩],
      ∃ r2 ∈ [(⟨36000000000, 1010, 20⟩ : Row), ⟨37800000000, 1008, 21⟩,
        ⟨39600000000, 1005, 23⟩],
      r1.time < 36900000000 ∧
      (∀ x ∈ [(⟨36000000000, 1010, 20⟩ : Row), ⟨37800000000, 1008, 21⟩,
        ⟨39600000000, 1005, 23⟩], x.time < 36900000000 → x.time ≤ r1.time) ∧
      36900000000 < r2.time ∧
      (∀ x ∈ [(⟨36000000000, 1010, 20⟩ : Row), ⟨37800000000, 1008, 21⟩,
        ⟨39600000000, 1005, 23⟩], 36900000000 < x.time → r2.time ≤ x.time) ∧
      resolveValue [⟨36000000000, 1010, 20⟩, ⟨37800000000, 1008, 21⟩,
          ⟨39600000000, 1005, 23⟩] 36900000000
        = Outcome.bracketed (min r1.pressure r2.pressure)
            (max r1.temperatureC r2.temperatureC)) ∧
    resolveValue [(⟨36000000000, 1010, 20⟩ : Row), ⟨37800000000, 1008, 21⟩,
        ⟨39600000000, 1005, 23⟩] 36900000000 = Outcome.bracketed 1008 21 :=
  ⟨by decide, by decide, by decide,
   resolveValue_bracketed_spec _ _ (by decide) (by decide) (by decide),
   by decide⟩

theorem resolveValue_one_sided_witness :
    (∀ r ∈ [(⟨60000000, 1000, 20⟩ : Row)], r.time ≠ 0) ∧
    (([(⟨60000000, 1000, 20⟩ : Row)] : List Row) = [] →
      resolveValue [⟨60000000, 1000, 20⟩] 0 = Outcome.outOfRange none) ∧
    (([(⟨60000000, 1000, 20⟩ : Row)] : List Row) ≠ [] →
      (∀ r ∈ [(⟨60000000, 1000, 20⟩ : Row)], r.time < 0) →
      ∃ r1 ∈ [(⟨60000000, 1000, 20⟩ : Row)],
        (∀ x ∈ [(⟨60000000, 1000, 20⟩ : Row)], x.time ≤ r1.time) ∧
        resolveValue [⟨60000000, 1000, 20⟩] 0
          = Outcome.bracketed r1.pressure r1.temperatureC) ∧
    (([(⟨60000000, 1000, 20⟩ : Row)] : List Row) ≠ [] →
      (∀ r ∈ [(⟨60000000, 1000, 20⟩ : Row)], (0 : Int) < r.time) →
      ∃ r2 ∈ [(⟨60000000, 1000, 20⟩ : Row)],
        (∀ x ∈ [(⟨60000000, 1000, 20⟩ : Row)], r2.time ≤ x.time) ∧
        resolveValue [⟨60000000, 1000, 20⟩] 0
          = Outcome.bracketed r2.pressure r2.temperatureC) :=
  ⟨by decide, resolveValue_one_sided _ _ (by decide)⟩

theorem resolve_target_time_spec_witness :
    (12 < 24) ∧ (0 < 60) ∧
    resolve_target_time 0 0 (usPerDay * 738885 + usPerHour * 23 + usPerMinute * 59)
      = usPerDay * 738886 ∧
    resolve_target_time 12 0 (usPerDay * 738885 + usPerHour * 6)
      = usPerDay * 738885 + usPerHour * 12 :=
  ⟨by decide, by decide,
   (resolve_target_time_spec 12 0 (usPerDay * 738885 + usPerHour * 6)
      (by decide) (by decide)).2.2.1,
   (resolve_target_time_spec 12 0 (usPerDay * 738885 + usPerHour * 6)
      (by decide) (by decide)).2.2.2⟩

end GetAirportWeather
